import Mathlib

-- Shallow embedding of the identity/access-control core of the zero2prod
-- web backend (Rust), covering: password policy and hashing gate
-- (src/auth/password.rs), JWT access-token issue/verify (src/auth/jwt.rs,
-- src/auth/claims.rs), the refresh-token store (src/auth/refresh_token.rs),
-- the token-bucket rate limiter (src/security.rs) and the input validators
-- (src/validators.rs).  Machine integers are modelled as Nat/Int; the f64
-- token budget of the rate limiter is modelled over the exact rationals;
-- wall-clock time is an explicit Int (seconds) or Rat parameter threaded
-- through each operation.

deriving instance DecidableEq for Except

namespace Zero2prod

/-- UTF-8 encoded length in bytes of one scalar value.  Models the byte
length that the Rust `str::len` accounting is based on. -/
def utf8CharLen (c : Char) : Nat :=
  if c.toNat < 0x80 then 1
  else if c.toNat < 0x800 then 2
  else if c.toNat < 0x10000 then 3
  else 4

/-- UTF-8 byte length of a character list, the model of Rust `str::len`. -/
def utf8Len (l : List Char) : Nat :=
  (l.map utf8CharLen).sum

-- ---------------------------------------------------------------------------
-- src/error.rs : domain error enums and the unified AppError
-- ---------------------------------------------------------------------------

/-- Validation errors for input data (src/error.rs, enum ValidationError). -/
inductive ValidationError where
  | EmptyField (field : String)
  | TooShort (field : String) (min : Nat)
  | TooLong (field : String) (max : Nat)
  | InvalidFormat (msg : String)
  | SuspiciousContent (field : String)
  | PossibleSQLInjection
deriving DecidableEq, Repr

/-- Database operation errors (src/error.rs, enum DatabaseError). -/
inductive DatabaseError where
  | UniqueConstraintViolation (msg : String)
  | NotFound (msg : String)
  | QueryExecution (msg : String)
  | ConnectionPool (msg : String)
  | UnexpectedError (msg : String)
deriving DecidableEq, Repr

/-- Email service errors (src/error.rs, enum EmailError). -/
inductive EmailError where
  | SendFailed (msg : String)
  | InvalidRecipient (msg : String)
  | ServiceUnavailable (msg : String)
  | ConfigurationError (msg : String)
deriving DecidableEq, Repr

/-- Configuration errors (src/error.rs, enum ConfigError). -/
inductive ConfigError where
  | MissingRequired (msg : String)
  | InvalidValue (msg : String)
  | ParseError (msg : String)
deriving DecidableEq, Repr

/-- Authentication errors (src/error.rs, enum AuthError). -/
inductive AuthError where
  | InvalidCredentials
  | TokenExpired
  | TokenInvalid
  | MissingToken
  | AccountInactive
deriving DecidableEq, Repr

/-- Central application error type (src/error.rs, enum AppError). -/
inductive AppError where
  | Validation (e : ValidationError)
  | Database (e : DatabaseError)
  | Email (e : EmailError)
  | Auth (e : AuthError)
  | Config (e : ConfigError)
  | Internal (msg : String)
deriving DecidableEq, Repr

-- ---------------------------------------------------------------------------
-- src/auth/password.rs : password policy and hashing gate
-- ---------------------------------------------------------------------------

namespace Password

def MIN_PASSWORD_LENGTH : Nat := 8

def MAX_PASSWORD_LENGTH : Nat := 128

/-- Model of Rust `char::is_numeric`, restricted to its ASCII fragment
(the digits 0-9); the password claims are insensitive to the exact
character class as long as the same class is used throughout. -/
def rustIsNumeric (c : Char) : Bool := c.isDigit

/-- Model of Rust `char::is_lowercase`, restricted to its ASCII fragment. -/
def rustIsLowercase (c : Char) : Bool := c.isLower

/-- Model of Rust `char::is_uppercase`, restricted to its ASCII fragment. -/
def rustIsUppercase (c : Char) : Bool := c.isUpper

/-- validate_password_strength (src/auth/password.rs lines 49-79):
length window in bytes, then the three required character classes. -/
def validate_password_strength (password : String) : Except AppError Unit :=
  if utf8Len password.toList < MIN_PASSWORD_LENGTH then
    .error (.Validation (.TooShort "password" MIN_PASSWORD_LENGTH))
  else if utf8Len password.toList > MAX_PASSWORD_LENGTH then
    .error (.Validation (.TooLong "password" MAX_PASSWORD_LENGTH))
  else
    let has_digit := password.toList.any rustIsNumeric
    let has_lowercase := password.toList.any rustIsLowercase
    let has_uppercase := password.toList.any rustIsUppercase
    if !has_digit || !has_lowercase || !has_uppercase then
      .error (.Validation (.InvalidFormat
        "password must contain at least one digit, one lowercase letter, and one uppercase letter"))
    else
      .ok ()

/-- Stand-in for the external bcrypt hashing call used by hash_password.
The bcrypt crate call `hash(password, DEFAULT_COST)` is modelled as total
(its only failure modes, invalid cost parameters, cannot occur with the
fixed DEFAULT_COST); the claims depend only on success versus failure,
and on the produced value being a digest string. -/
def bcryptHash (password : String) : String :=
  String.append "$2b$12$" password

/-- hash_password (src/auth/password.rs lines 21-26): validate the policy,
then hash. -/
def hash_password (password : String) : Except AppError String :=
  match validate_password_strength password with
  | .error e => .error e
  | .ok _ => .ok (bcryptHash password)

/-- The password policy exactly as checked by the source: byte length in
[8,128] and at least one digit, one lowercase and one uppercase letter. -/
def passwordPolicy (password : String) : Prop :=
  MIN_PASSWORD_LENGTH ≤ utf8Len password.toList ∧
  utf8Len password.toList ≤ MAX_PASSWORD_LENGTH ∧
  password.toList.any rustIsNumeric = true ∧
  password.toList.any rustIsLowercase = true ∧
  password.toList.any rustIsUppercase = true

instance (p : String) : Decidable (passwordPolicy p) := by
  unfold passwordPolicy
  infer_instance

end Password

-- ---------------------------------------------------------------------------
-- Claim theorems: C4
-- ---------------------------------------------------------------------------

/-- validate_password_strength with its let bindings zeta-reduced
(definitionally equal reformulation used to drive case splits). -/
lemma validate_password_strength_eq (p : String) :
    Password.validate_password_strength p =
      (if utf8Len p.toList < Password.MIN_PASSWORD_LENGTH then
        .error (.Validation (.TooShort "password" Password.MIN_PASSWORD_LENGTH))
      else if utf8Len p.toList > Password.MAX_PASSWORD_LENGTH then
        .error (.Validation (.TooLong "password" Password.MAX_PASSWORD_LENGTH))
      else if !(p.toList.any Password.rustIsNumeric) ||
              !(p.toList.any Password.rustIsLowercase) ||
              !(p.toList.any Password.rustIsUppercase) then
        .error (.Validation (.InvalidFormat
          "password must contain at least one digit, one lowercase letter, and one uppercase letter"))
      else .ok ()) := rfl

/-- validate_password_strength succeeds exactly on the password policy,
and otherwise fails with some ValidationError. -/
lemma validate_password_strength_cases (p : String) :
    (Password.passwordPolicy p ∧
      Password.validate_password_strength p = .ok ()) ∨
    (¬ Password.passwordPolicy p ∧
      ∃ ve : ValidationError,
        Password.validate_password_strength p = .error (.Validation ve)) := by
  rw [validate_password_strength_eq]
  unfold Password.passwordPolicy
  split_ifs with h1 h2 h3
  · right
    exact ⟨by omega, _, rfl⟩
  · right
    exact ⟨by omega, _, rfl⟩
  · right
    refine ⟨?_, _, rfl⟩
    rintro ⟨-, -, ha, hb, hc⟩
    simp only [ha, hb, hc, Bool.not_true, Bool.false_or] at h3
    exact Bool.noConfusion h3
  · left
    have hA : p.toList.any Password.rustIsNumeric = true := by
      rcases Bool.eq_false_or_eq_true (p.toList.any Password.rustIsNumeric) with h | h
      · exact h
      · exact absurd (by simp only [h, Bool.not_false, Bool.true_or]) h3
    have hB : p.toList.any Password.rustIsLowercase = true := by
      rcases Bool.eq_false_or_eq_true (p.toList.any Password.rustIsLowercase) with h | h
      · exact h
      · exact absurd
          (by simp only [h, Bool.not_false, Bool.true_or, Bool.or_true]) h3
    have hC : p.toList.any Password.rustIsUppercase = true := by
      rcases Bool.eq_false_or_eq_true (p.toList.any Password.rustIsUppercase) with h | h
      · exact h
      · exact absurd (by simp only [h, Bool.not_false, Bool.or_true]) h3
    exact ⟨⟨by omega, by omega, hA, hB, hC⟩, rfl⟩

/-- C4: hash_password succeeds (producing a digest) if and only if the
password satisfies the strength policy (byte length in [8,128], at least
one digit, one lowercase and one uppercase letter); every password
violating any rule fails with a ValidationError, and no digest is
produced. -/
theorem hash_password_succeeds_iff_policy (p : String) :
    ((∃ d, Password.hash_password p = .ok d) ↔ Password.passwordPolicy p) ∧
    (¬ Password.passwordPolicy p →
      ∃ ve : ValidationError,
        Password.hash_password p = .error (.Validation ve)) := by
  rcases validate_password_strength_cases p with ⟨hp, hok⟩ | ⟨hnp, ve, herr⟩
  · refine ⟨⟨fun _ => hp, fun _ => ⟨Password.bcryptHash p, ?_⟩⟩,
      fun h => absurd hp h⟩
    unfold Password.hash_password
    rw [hok]
  · constructor
    · constructor
      · rintro ⟨d, hd⟩
        unfold Password.hash_password at hd
        rw [herr] at hd
        cases hd
      · intro hpol
        exact absurd hpol hnp
    · intro _
      refine ⟨ve, ?_⟩
      unfold Password.hash_password
      rw [herr]

/-- Witness for C4 at concrete inputs: the policy-conforming password
Password123 hashes successfully, and the policy-violating password short
fails with a ValidationError. -/
theorem hash_password_succeeds_iff_policy_witness :
    (∃ d, Password.hash_password "Password123" = .ok d) ∧
    (∃ ve : ValidationError,
      Password.hash_password "short" = .error (.Validation ve)) :=
  ⟨(hash_password_succeeds_iff_policy "Password123").1.mpr (by decide),
   (hash_password_succeeds_iff_policy "short").2 (by decide)⟩

-- ---------------------------------------------------------------------------
-- src/configuration.rs, src/auth/claims.rs, src/auth/jwt.rs
-- ---------------------------------------------------------------------------

namespace Jwt

/-- JWT configuration (src/configuration.rs, struct JwtSettings). -/
structure JwtSettings where
  secret : String
  access_token_expiry : Int
  refresh_token_expiry : Int
  issuer : String
deriving DecidableEq, Repr

/-- JWT claims payload (src/auth/claims.rs, struct Claims).  Times are
Unix-timestamp seconds. -/
structure Claims where
  sub : String
  email : String
  exp : Int
  iat : Int
  iss : String
deriving DecidableEq, Repr

/-- Claims::new (src/auth/claims.rs lines 33-47).  User ids (Uuid in the
source) are modelled as Nat; sub stores the id rendered as a string, as
the source stores user_id.to_string().  The wall clock is the explicit
now parameter. -/
def Claims.new (user_id : Nat) (email : String) (expiry_seconds : Int)
    (issuer : String) (now : Int) : Claims :=
  { sub := toString user_id
    email := email
    exp := now + expiry_seconds
    iat := now
    iss := issuer }

/-- Claims::is_expired (src/auth/claims.rs lines 59-62). -/
def Claims.is_expired (c : Claims) (now : Int) : Bool :=
  c.exp < now

/-- Signing algorithms of the external jsonwebtoken crate (a representative
subset; only HS256 is used by the source). -/
inductive Algorithm where
  | HS256
  | HS384
  | HS512
  | RS256
deriving DecidableEq, Repr

/-- A compact signed token as the verifier sees it.  A structurally valid
token records the header algorithm, the payload and the key it was signed
with (the MAC is modelled as key possession); any other input string is a
malformed token. -/
inductive JwtToken where
  | signed (alg : Algorithm) (claims : Claims) (key : String)
  | malformed (raw : String)
deriving DecidableEq, Repr

/-- Error kinds produced by the external verifier. -/
inductive JwtError where
  | InvalidToken
  | InvalidSignature
  | InvalidAlgorithm
  | InvalidIssuer
  | ExpiredSignature
deriving DecidableEq, Repr

/-- Validation settings of the external jsonwebtoken crate. -/
structure Validation where
  algorithms : List Algorithm
  iss : Option (List String)
  validate_exp : Bool
  leeway : Int
deriving DecidableEq, Repr

/-- Validation::new(alg): pin the expected algorithm and validate expiry.
The expiry bound is modelled strictly (zero leeway), following the spec
description of the verifier (an error is returned once the wall clock
exceeds expiresAt). -/
def Validation.new (alg : Algorithm) : Validation :=
  { algorithms := [alg], iss := none, validate_exp := true, leeway := 0 }

/-- Validation::set_issuer. -/
def Validation.set_issuer (v : Validation) (issuers : List String) :
    Validation :=
  { v with iss := some issuers }

/-- jsonwebtoken::encode with a symmetric key: producing the compact signed
representation is modelled as packaging algorithm, claims and key. -/
def encode (alg : Algorithm) (claims : Claims) (key : String) : JwtToken :=
  .signed alg claims key

/-- jsonwebtoken::decode, modelled per the spec description of the
verifier: signature, algorithm pin, issuer match and expiry are checked
in that order; the first failing check yields its error. -/
def decode (token : JwtToken) (key : String) (v : Validation) (now : Int) :
    Except JwtError Claims :=
  match token with
  | .malformed _ => .error .InvalidToken
  | .signed alg claims tkey =>
    if tkey != key then .error .InvalidSignature
    else if !(v.algorithms.contains alg) then .error .InvalidAlgorithm
    else if (match v.iss with
             | some l => !(l.contains claims.iss)
             | none => false) then .error .InvalidIssuer
    else if v.validate_exp && decide (claims.exp < now - v.leeway) then
      .error .ExpiredSignature
    else .ok claims

/-- generate_access_token (src/auth/jwt.rs lines 21-39): build claims from
the configuration and sign with Header::default() (HS256) and the shared
secret. -/
def generate_access_token (user_id : Nat) (email : String)
    (config : JwtSettings) (now : Int) : Except AppError JwtToken :=
  let claims :=
    Claims.new user_id email config.access_token_expiry config.issuer now
  .ok (encode .HS256 claims config.secret)

/-- validate_access_token (src/auth/jwt.rs lines 49-64): decode with the
pinned HS256 algorithm and the configured issuer; every decode failure is
mapped to the single generic error AppError::Internal with message
Invalid or expired token. -/
def validate_access_token (token : JwtToken) (config : JwtSettings)
    (now : Int) : Except AppError Claims :=
  let validation := (Validation.new .HS256).set_issuer [config.issuer]
  match decode token config.secret validation now with
  | .ok data => .ok data
  | .error _ => .error (.Internal "Invalid or expired token")

end Jwt

-- ---------------------------------------------------------------------------
-- Claim theorems: C3, C5
-- ---------------------------------------------------------------------------

/-- C3: for every user id, email, issuer, secret and ttl > 0, a freshly
issued access token verifies under the same secret and issuer as long as
the wall clock has not passed issuedAt + ttl, returning claims whose
subject is the user id rendered as a string and whose email matches; once
the wall clock exceeds issuedAt + ttl, verification returns an error. -/
theorem access_token_round_trip (u : Nat) (e secret iss : String)
    (ttl rexp now now2 : Int) (httl : 0 < ttl) :
    ∃ tok,
      Jwt.generate_access_token u e ⟨secret, ttl, rexp, iss⟩ now = .ok tok ∧
      (now2 ≤ now + ttl →
        ∃ c, Jwt.validate_access_token tok ⟨secret, ttl, rexp, iss⟩ now2 =
            .ok c ∧ c.sub = toString u ∧ c.email = e) ∧
      (now + ttl < now2 →
        ∃ err, Jwt.validate_access_token tok ⟨secret, ttl, rexp, iss⟩ now2 =
            .error err) := by
  refine ⟨Jwt.encode .HS256
    (Jwt.Claims.new u e ttl iss now) secret, rfl, ?_, ?_⟩
  · intro hle
    refine ⟨Jwt.Claims.new u e ttl iss now, ?_, rfl, rfl⟩
    unfold Jwt.validate_access_token Jwt.decode Jwt.encode
    simp only [Jwt.Validation.new, Jwt.Validation.set_issuer]
    rw [if_neg, if_neg, if_neg, if_neg]
    · simp only [Bool.true_and, decide_eq_true_eq, Jwt.Claims.new]
      omega
    · simp [Jwt.Claims.new]
    · simp
    · simp
  · intro hlt
    refine ⟨.Internal "Invalid or expired token", ?_⟩
    unfold Jwt.validate_access_token Jwt.decode Jwt.encode
    simp only [Jwt.Validation.new, Jwt.Validation.set_issuer]
    rw [if_neg, if_neg, if_neg, if_pos]
    · simp only [Bool.true_and, decide_eq_true_eq, Jwt.Claims.new]
      omega
    · simp [Jwt.Claims.new]
    · simp
    · simp

/-- Witness for C3 at concrete inputs: ttl 100, issued at time 0, verified
at time 50 (within the window) and at time 101 (past the window). -/
theorem access_token_round_trip_witness :
    (0 : Int) < 100 ∧
    ∃ tok,
      Jwt.generate_access_token 1 "a@b.co" ⟨"s", 100, 0, "i"⟩ 0 = .ok tok ∧
      (50 ≤ (0 : Int) + 100 →
        ∃ c, Jwt.validate_access_token tok ⟨"s", 100, 0, "i"⟩ 50 =
            .ok c ∧ c.sub = toString 1 ∧ c.email = "a@b.co") ∧
      ((0 : Int) + 100 < 101 →
        ∃ err, Jwt.validate_access_token tok ⟨"s", 100, 0, "i"⟩ 101 =
            .error err) := by
  constructor
  · decide
  · have h1 := access_token_round_trip 1 "a@b.co" "s" "i" 100 0 0 50
      (by decide)
    have h2 := access_token_round_trip 1 "a@b.co" "s" "i" 100 0 0 101
      (by decide)
    obtain ⟨tok, hgen, hok, -⟩ := h1
    obtain ⟨tok2, hgen2, -, herr⟩ := h2
    refine ⟨tok, hgen, hok, ?_⟩
    have : tok2 = tok := by
      rw [hgen] at hgen2
      exact (Except.ok.injEq _ _).mp hgen2.symm
    rw [← this]
    exact herr

/-- C5: whenever access-token verification fails, for any cause,
validate_access_token returns the one generic error value
AppError::Internal with message Invalid or expired token. -/
theorem validate_access_token_single_error (token : Jwt.JwtToken)
    (config : Jwt.JwtSettings) (now : Int)
    (h : ∃ e, Jwt.validate_access_token token config now = .error e) :
    Jwt.validate_access_token token config now =
      .error (.Internal "Invalid or expired token") := by
  obtain ⟨e, he⟩ := h
  have heq : Jwt.validate_access_token token config now =
      (match Jwt.decode token config.secret
          ((Jwt.Validation.new .HS256).set_issuer [config.issuer]) now with
        | .ok data => Except.ok data
        | .error _ =>
            Except.error (AppError.Internal "Invalid or expired token")) :=
    rfl
  rw [heq] at he ⊢
  cases hd : Jwt.decode token config.secret
      ((Jwt.Validation.new .HS256).set_issuer [config.issuer]) now with
  | ok c =>
    rw [hd] at he
    simp at he
  | error f =>
    rfl

/-- Witness for C5: a malformed token, a token signed with a different
secret and an expired token all produce the identical generic error. -/
theorem validate_access_token_single_error_witness :
    Jwt.validate_access_token (.malformed "bad") ⟨"s", 100, 0, "i"⟩ 0 =
      .error (.Internal "Invalid or expired token") ∧
    Jwt.validate_access_token
      (.signed .HS256 (Jwt.Claims.new 1 "a@b.co" 100 "i" 0) "other")
      ⟨"s", 100, 0, "i"⟩ 0 =
      .error (.Internal "Invalid or expired token") ∧
    Jwt.validate_access_token
      (.signed .HS256 (Jwt.Claims.new 1 "a@b.co" 100 "i" 0) "s")
      ⟨"s", 100, 0, "i"⟩ 500 =
      .error (.Internal "Invalid or expired token") :=
  ⟨validate_access_token_single_error _ _ _
      ⟨AppError.Internal "Invalid or expired token", by decide⟩,
   validate_access_token_single_error _ _ _
      ⟨AppError.Internal "Invalid or expired token", by decide⟩,
   validate_access_token_single_error _ _ _
      ⟨AppError.Internal "Invalid or expired token", by decide⟩⟩

-- ---------------------------------------------------------------------------
-- src/auth/refresh_token.rs : the refresh-token store
-- ---------------------------------------------------------------------------

namespace RefreshToken

/-- hash_token (src/auth/refresh_token.rs lines 35-39): the SHA-256 hex
digest of the plaintext token.  Modelled as a deterministic injective
function of the plaintext; the identity injection is used as the digest
stand-in, since the store behavior depends only on the digest map being
deterministic. -/
def hash_token (token : String) : String :=
  token

/-- One row of the refresh_tokens table (columns per the INSERT and
SELECT statements of src/auth/refresh_token.rs). -/
structure RefreshTokenRow where
  id : Nat
  user_id : Nat
  token_hash : String
  expires_at : Int
  is_revoked : Bool
  revoked_at : Option Int
  created_at : Int
deriving DecidableEq, Repr

/-- The refresh_tokens table: rows in insertion order.  INSERT appends;
the unordered SELECT ... WHERE token_hash = $1 read with fetch_optional
is modelled as the first matching row in row order. -/
abbrev Store := List RefreshTokenRow

/-- save_refresh_token (src/auth/refresh_token.rs lines 51-75): insert a
row with the token digest, expires_at = now + expiry_seconds and
created_at = now; is_revoked starts false and revoked_at null.  The
random Uuid primary key is an explicit fresh_id parameter. -/
def save_refresh_token (s : Store) (user_id : Nat) (token : String)
    (expiry_seconds : Int) (now : Int) (fresh_id : Nat) : Store :=
  s ++ [{ id := fresh_id
          user_id := user_id
          token_hash := hash_token token
          expires_at := now + expiry_seconds
          is_revoked := false
          revoked_at := none
          created_at := now }]

/-- validate_refresh_token (src/auth/refresh_token.rs lines 93-134): look
up by digest; no row, a revoked row and an expired row each produce their
own error value. -/
def validate_refresh_token (s : Store) (token : String) (now : Int) :
    Except AppError Nat :=
  match s.find? (fun r => r.token_hash == hash_token token) with
  | none => .error (.Validation (.InvalidFormat "Invalid refresh token"))
  | some r =>
    if r.is_revoked then
      .error (.Validation (.InvalidFormat "Token has been revoked"))
    else if r.expires_at < now then
      .error (.Validation (.InvalidFormat "Token has expired"))
    else
      .ok r.user_id

/-- revoke_refresh_token (src/auth/refresh_token.rs lines 146-162):
UPDATE ... SET is_revoked = true, revoked_at = now WHERE token_hash
matches (no is_revoked condition, so revoked_at is overwritten on a
second call); matching zero rows is not an error. -/
def revoke_refresh_token (s : Store) (token : String) (now : Int) : Store :=
  s.map (fun r =>
    if r.token_hash == hash_token token then
      { r with is_revoked := true, revoked_at := some now }
    else r)

/-- revoke_all_user_tokens (src/auth/refresh_token.rs lines 174-189):
UPDATE ... WHERE user_id matches AND is_revoked = false. -/
def revoke_all_user_tokens (s : Store) (user_id : Nat) (now : Int) : Store :=
  s.map (fun r =>
    if r.user_id == user_id && !r.is_revoked then
      { r with is_revoked := true, revoked_at := some now }
    else r)

/-- The store mutations available to callers (validate is read-only). -/
inductive StoreOp where
  | save (user_id : Nat) (token : String) (expiry_seconds : Int)
      (now : Int) (fresh_id : Nat)
  | revoke (token : String) (now : Int)
  | revokeAll (user_id : Nat) (now : Int)

/-- Apply one store mutation. -/
def applyOp (s : Store) : StoreOp → Store
  | .save u t e n i => save_refresh_token s u t e n i
  | .revoke t n => revoke_refresh_token s t n
  | .revokeAll u n => revoke_all_user_tokens s u n

/-- Apply a sequence of store mutations in order. -/
def applyOps (s : Store) (ops : List StoreOp) : Store :=
  ops.foldl applyOp s

/-- The row validate_refresh_token would read for this token is revoked
(there is a matching row, and the first one is revoked). -/
def firstMatchRevoked (s : Store) (token : String) : Prop :=
  ∃ r, s.find? (fun r => r.token_hash == hash_token token) = some r ∧
    r.is_revoked = true

end RefreshToken

-- helper lemmas about find? used by the refresh-token claims

lemma find?_append_of_some {α} (p : α → Bool) {l₁ : List α} (l₂ : List α)
    {r : α} (h : l₁.find? p = some r) : (l₁ ++ l₂).find? p = some r := by
  induction l₁ with
  | nil => cases h
  | cons a t ih =>
    by_cases hpa : p a
    · rw [List.find?_cons_of_pos _ hpa] at h
      rw [List.cons_append, List.find?_cons_of_pos _ hpa]
      exact h
    · rw [List.find?_cons_of_neg _ hpa] at h
      rw [List.cons_append, List.find?_cons_of_neg _ hpa]
      exact ih h

lemma find?_append_of_none {α} (p : α → Bool) {l₁ : List α} (l₂ : List α)
    (h : l₁.find? p = none) : (l₁ ++ l₂).find? p = l₂.find? p := by
  induction l₁ with
  | nil => rfl
  | cons a t ih =>
    by_cases hpa : p a
    · rw [List.find?_cons_of_pos _ hpa] at h
      cases h
    · rw [List.find?_cons_of_neg _ hpa] at h
      rw [List.cons_append, List.find?_cons_of_neg _ hpa]
      exact ih h

lemma find?_map_of_pred_inv {α} (g : α → α) (p : α → Bool)
    (hg : ∀ r, p (g r) = p r) (l : List α) :
    (l.map g).find? p = (l.find? p).map g := by
  induction l with
  | nil => rfl
  | cons a t ih =>
    by_cases hpa : p a
    · rw [List.map_cons, List.find?_cons_of_pos _ ((hg a).trans hpa),
        List.find?_cons_of_pos _ hpa]
      rfl
    · rw [List.map_cons, List.find?_cons_of_neg _ (by simp [hg a, hpa]),
        List.find?_cons_of_neg _ hpa]
      exact ih

namespace RefreshToken

/-- Both revocation mutations leave the token_hash column unchanged and
never clear is_revoked; saving appends.  Hence: once the first matching
row for a token is revoked, it stays the first matching row and stays
revoked under every store mutation. -/
lemma firstMatchRevoked_applyOp {s : Store} {t : String}
    (h : firstMatchRevoked s t) (op : StoreOp) :
    firstMatchRevoked (applyOp s op) t := by
  obtain ⟨r, hfind, hrev⟩ := h
  cases op with
  | save u tk e n i =>
    exact ⟨r, find?_append_of_some _ _ hfind, hrev⟩
  | revoke tk n =>
    refine ⟨if r.token_hash == hash_token tk then
        { r with is_revoked := true, revoked_at := some n } else r, ?_, ?_⟩
    · show (s.map _).find? _ = _
      rw [find?_map_of_pred_inv _ _ (fun x => by
        by_cases hx : x.token_hash == hash_token tk <;> simp [hx]) s, hfind]
      rfl
    · by_cases hx : r.token_hash == hash_token tk <;> simp [hx, hrev]
  | revokeAll u n =>
    refine ⟨if r.user_id == u && !r.is_revoked then
        { r with is_revoked := true, revoked_at := some n } else r, ?_, ?_⟩
    · show (s.map _).find? _ = _
      rw [find?_map_of_pred_inv _ _ (fun x => by
        by_cases hx : x.user_id == u && !x.is_revoked <;> simp [hx]) s, hfind]
      rfl
    · by_cases hx : r.user_id == u && !r.is_revoked <;> simp [hx, hrev]

/-- firstMatchRevoked is preserved by arbitrary sequences of store
mutations. -/
lemma firstMatchRevoked_applyOps {s : Store} {t : String}
    (h : firstMatchRevoked s t) (ops : List StoreOp) :
    firstMatchRevoked (applyOps s ops) t := by
  induction ops generalizing s with
  | nil => exact h
  | cons op rest ih => exact ih (firstMatchRevoked_applyOp h op)

/-- If the row validate would read is revoked, validation reports the
token as revoked. -/
lemma validate_of_firstMatchRevoked {s : Store} {t : String}
    (h : firstMatchRevoked s t) (now : Int) :
    validate_refresh_token s t now =
      .error (.Validation (.InvalidFormat "Token has been revoked")) := by
  obtain ⟨r, hfind, hrev⟩ := h
  unfold validate_refresh_token
  rw [hfind]
  simp [hrev]

/-- revoke_refresh_token revokes every matching row. -/
lemma revoke_establishes_firstMatchRevoked {s : Store} {t : String}
    (hex : ∃ r ∈ s, r.token_hash = hash_token t) (now : Int) :
    firstMatchRevoked (revoke_refresh_token s t now) t := by
  obtain ⟨r0, hr0mem, hr0hash⟩ := hex
  have hfind : ∃ r, s.find? (fun r => r.token_hash == hash_token t) =
      some r := by
    cases hf : s.find? (fun r => r.token_hash == hash_token t) with
    | none =>
      have := List.find?_eq_none.mp hf r0 hr0mem
      exact absurd (by simpa using hr0hash) this
    | some r => exact ⟨r, rfl⟩
  obtain ⟨r, hfind⟩ := hfind
  have hrhash := List.find?_some hfind
  refine ⟨{ r with is_revoked := true, revoked_at := some now }, ?_, rfl⟩
  show (s.map _).find? _ = _
  rw [find?_map_of_pred_inv _ _ (fun x => by
    by_cases hx : x.token_hash == hash_token t <;> simp [hx]) s, hfind]
  show some (if r.token_hash == hash_token t then
    { r with is_revoked := true, revoked_at := some now } else r) = _
  rw [if_pos hrhash]

end RefreshToken

-- ---------------------------------------------------------------------------
-- Claim theorems: C1, C2, C8
-- ---------------------------------------------------------------------------

/-- C1 (code divergence): the three refresh-token validation failure
causes return three pairwise distinct error values — the messages
Invalid refresh token, Token has been revoked and Token has expired —
so the causes are distinguishable by the caller, contrary to the claim
that all three are one identical error value.  Evaluated at one token
digest against an empty store, a store with a revoked row and a store
with an expired row. -/
theorem validate_refresh_token_distinct_error_values :
    RefreshToken.validate_refresh_token [] "tok" 50 =
      .error (.Validation (.InvalidFormat "Invalid refresh token")) ∧
    RefreshToken.validate_refresh_token
      [{ id := 1, user_id := 7, token_hash := RefreshToken.hash_token "tok",
         expires_at := 100, is_revoked := true, revoked_at := some 5,
         created_at := 0 }] "tok" 50 =
      .error (.Validation (.InvalidFormat "Token has been revoked")) ∧
    RefreshToken.validate_refresh_token
      [{ id := 1, user_id := 7, token_hash := RefreshToken.hash_token "tok",
         expires_at := 10, is_revoked := false, revoked_at := none,
         created_at := 0 }] "tok" 50 =
      .error (.Validation (.InvalidFormat "Token has expired")) ∧
    (AppError.Validation (.InvalidFormat "Invalid refresh token") ≠
      AppError.Validation (.InvalidFormat "Token has been revoked")) ∧
    (AppError.Validation (.InvalidFormat "Token has been revoked") ≠
      AppError.Validation (.InvalidFormat "Token has expired")) ∧
    (AppError.Validation (.InvalidFormat "Invalid refresh token") ≠
      AppError.Validation (.InvalidFormat "Token has expired")) := by
  refine ⟨rfl, ?_, ?_, by decide, by decide, by decide⟩ <;> decide

/-- C2: once a token has a row and revoke_refresh_token has run (or
revoke_all_user_tokens for the owner of all its rows), every later store
state reached by any sequence of store mutations still rejects that
token; and a freshly persisted token (digest not yet in the store)
validates to its owner until its expiry passes. -/
theorem refresh_token_revocation_terminal (s : RefreshToken.Store)
    (t : String) (now : Int) :
    ((∃ r ∈ s, r.token_hash = RefreshToken.hash_token t) →
      ∀ ops now2, ∃ e,
        RefreshToken.validate_refresh_token
          (RefreshToken.applyOps
            (RefreshToken.revoke_refresh_token s t now) ops) t now2 =
          .error e) ∧
    (∀ u, (∃ r ∈ s, r.token_hash = RefreshToken.hash_token t) →
      (∀ r ∈ s, r.token_hash = RefreshToken.hash_token t → r.user_id = u) →
      ∀ ops now2, ∃ e,
        RefreshToken.validate_refresh_token
          (RefreshToken.applyOps
            (RefreshToken.revoke_all_user_tokens s u now) ops) t now2 =
          .error e) ∧
    (∀ u t2 ttl fresh_id now3,
      (∀ r ∈ s, r.token_hash ≠ RefreshToken.hash_token t2) →
      (now3 ≤ now + ttl →
        RefreshToken.validate_refresh_token
          (RefreshToken.save_refresh_token s u t2 ttl now fresh_id) t2 now3 =
          .ok u) ∧
      (now + ttl < now3 →
        ∃ e, RefreshToken.validate_refresh_token
          (RefreshToken.save_refresh_token s u t2 ttl now fresh_id) t2 now3 =
          .error e)) := by
  refine ⟨?_, ?_, ?_⟩
  · intro hex ops now2
    refine ⟨_, RefreshToken.validate_of_firstMatchRevoked
      (RefreshToken.firstMatchRevoked_applyOps
        (RefreshToken.revoke_establishes_firstMatchRevoked hex now) ops)
      now2⟩
  · intro u hex hown ops now2
    refine ⟨_, RefreshToken.validate_of_firstMatchRevoked
      (RefreshToken.firstMatchRevoked_applyOps ?_ ops) now2⟩
    -- revoke_all by the owner revokes every matching row
    obtain ⟨r0, hr0mem, hr0hash⟩ := hex
    have hfind : ∃ r, s.find?
        (fun r => r.token_hash == RefreshToken.hash_token t) = some r := by
      cases hf : s.find?
          (fun r => r.token_hash == RefreshToken.hash_token t) with
      | none =>
        have := List.find?_eq_none.mp hf r0 hr0mem
        exact absurd (by simpa using hr0hash) this
      | some r => exact ⟨r, rfl⟩
    obtain ⟨r, hfind⟩ := hfind
    have hrmem : r ∈ s := List.mem_of_find?_eq_some hfind
    have hrhash := List.find?_some hfind
    have hruser : r.user_id = u :=
      hown r hrmem (by simpa using hrhash)
    refine ⟨if r.user_id == u && !r.is_revoked then
        { r with is_revoked := true, revoked_at := some now } else r, ?_, ?_⟩
    · show (s.map _).find? _ = _
      rw [find?_map_of_pred_inv _ _ (fun x => by
        by_cases hx : x.user_id == u && !x.is_revoked <;> simp [hx]) s,
        hfind]
      rfl
    · rcases Bool.eq_false_or_eq_true r.is_revoked with hrv | hrv
      · simp [hruser, hrv]
      · simp [hruser, hrv]
  · intro u t2 ttl fresh_id now3 hfresh
    have hnone : s.find?
        (fun r => r.token_hash == RefreshToken.hash_token t2) = none := by
      rw [List.find?_eq_none]
      intro r hr
      simpa using hfresh r hr
    have hfind : (RefreshToken.save_refresh_token s u t2 ttl now
        fresh_id).find?
        (fun r => r.token_hash == RefreshToken.hash_token t2) =
        some { id := fresh_id, user_id := u,
               token_hash := RefreshToken.hash_token t2,
               expires_at := now + ttl, is_revoked := false,
               revoked_at := none, created_at := now } := by
      unfold RefreshToken.save_refresh_token
      rw [find?_append_of_none _ _ hnone]
      simp
    constructor
    · intro hle
      unfold RefreshToken.validate_refresh_token
      rw [hfind]
      show (if (false = true) then
          Except.error (AppError.Validation
            (ValidationError.InvalidFormat "Token has been revoked"))
        else if ((now + ttl : Int) < now3) then
          Except.error (AppError.Validation
            (ValidationError.InvalidFormat "Token has expired"))
        else Except.ok u) = Except.ok u
      rw [if_neg (by simp), if_neg (by omega)]
    · intro hlt
      refine ⟨.Validation (.InvalidFormat "Token has expired"), ?_⟩
      unfold RefreshToken.validate_refresh_token
      rw [hfind]
      show (if (false = true) then
          Except.error (AppError.Validation
            (ValidationError.InvalidFormat "Token has been revoked"))
        else if ((now + ttl : Int) < now3) then
          Except.error (AppError.Validation
            (ValidationError.InvalidFormat "Token has expired"))
        else Except.ok u) =
        Except.error (AppError.Validation
          (ValidationError.InvalidFormat "Token has expired"))
      rw [if_neg (by simp), if_pos (by omega)]

/-- Witness for C2 at concrete inputs: one active row for token tok; after
revocation, validation fails even after a later save of a fresh token,
and the fresh token validates to its owner before its expiry and fails
after it. -/
theorem refresh_token_revocation_terminal_witness :
    (∃ e, RefreshToken.validate_refresh_token
      (RefreshToken.applyOps
        (RefreshToken.revoke_refresh_token
          [{ id := 1, user_id := 7,
             token_hash := RefreshToken.hash_token "tok",
             expires_at := 100, is_revoked := false, revoked_at := none,
             created_at := 0 }] "tok" 10)
        [RefreshToken.StoreOp.save 7 "fresh" 100 10 2]) "tok" 20 =
      .error e) ∧
    (RefreshToken.validate_refresh_token
      (RefreshToken.save_refresh_token
        [{ id := 1, user_id := 7,
           token_hash := RefreshToken.hash_token "tok",
           expires_at := 100, is_revoked := false, revoked_at := none,
           created_at := 0 }] 7 "fresh" 100 10 2) "fresh" 20 = .ok 7) ∧
    (∃ e, RefreshToken.validate_refresh_token
      (RefreshToken.save_refresh_token
        [{ id := 1, user_id := 7,
           token_hash := RefreshToken.hash_token "tok",
           expires_at := 100, is_revoked := false, revoked_at := none,
           created_at := 0 }] 7 "fresh" 100 10 2) "fresh" 200 =
      .error e) := by
  have h := refresh_token_revocation_terminal
    [{ id := 1, user_id := 7, token_hash := RefreshToken.hash_token "tok",
       expires_at := 100, is_revoked := false, revoked_at := none,
       created_at := 0 }] "tok" 10
  refine ⟨h.1 (by decide) [RefreshToken.StoreOp.save 7 "fresh" 100 10 2] 20,
    ?_, ?_⟩
  · exact (h.2.2 7 "fresh" 100 2 20 (by decide)).1 (by decide)
  · exact (h.2.2 7 "fresh" 100 2 200 (by decide)).2 (by decide)

/-- C8: revoke_refresh_token is total at the store level (matching zero
rows is a no-op, not an error); revoking twice equals revoking once with
the later timestamp, so a second call changes nothing but revoked_at and
a second call at the same time changes nothing at all; all matching rows
end up revoked. -/
theorem revoke_refresh_token_idempotent (s : RefreshToken.Store)
    (t : String) (now now2 : Int) :
    RefreshToken.revoke_refresh_token
        (RefreshToken.revoke_refresh_token s t now) t now2 =
      RefreshToken.revoke_refresh_token s t now2 ∧
    RefreshToken.revoke_refresh_token
        (RefreshToken.revoke_refresh_token s t now) t now =
      RefreshToken.revoke_refresh_token s t now ∧
    ((∀ r ∈ s, r.token_hash ≠ RefreshToken.hash_token t) →
      RefreshToken.revoke_refresh_token s t now = s) ∧
    (∀ r ∈ RefreshToken.revoke_refresh_token s t now,
      r.token_hash = RefreshToken.hash_token t → r.is_revoked = true) := by
  have hdouble : ∀ m : Int,
      RefreshToken.revoke_refresh_token
        (RefreshToken.revoke_refresh_token s t now) t m =
      RefreshToken.revoke_refresh_token s t m := by
    intro m
    unfold RefreshToken.revoke_refresh_token
    rw [List.map_map]
    apply List.map_congr_left
    intro r _
    by_cases hx : r.token_hash == RefreshToken.hash_token t
    · simp [Function.comp, hx]
    · simp [Function.comp, hx]
  refine ⟨hdouble now2, hdouble now, ?_, ?_⟩
  · intro hnone
    unfold RefreshToken.revoke_refresh_token
    have hid : ∀ r ∈ s,
        (if r.token_hash == RefreshToken.hash_token t then
          { r with is_revoked := true, revoked_at := some now }
        else r) = id r := by
      intro r hr
      rw [if_neg (by simpa using hnone r hr)]
      rfl
    rw [List.map_congr_left hid, List.map_id]
  · intro r hr hrhash
    unfold RefreshToken.revoke_refresh_token at hr
    obtain ⟨r0, hr0mem, hr0eq⟩ := List.mem_map.mp hr
    by_cases hx : r0.token_hash == RefreshToken.hash_token t
    · rw [if_pos hx] at hr0eq
      rw [← hr0eq]
    · rw [if_neg hx] at hr0eq
      subst hr0eq
      exact absurd hrhash (by simpa using hx)

/-- Witness for C8 at concrete inputs. -/
theorem revoke_refresh_token_idempotent_witness :
    RefreshToken.revoke_refresh_token
        (RefreshToken.revoke_refresh_token
          [{ id := 1, user_id := 7,
             token_hash := RefreshToken.hash_token "tok",
             expires_at := 100, is_revoked := false, revoked_at := none,
             created_at := 0 }] "tok" 10) "tok" 10 =
      RefreshToken.revoke_refresh_token
        [{ id := 1, user_id := 7,
           token_hash := RefreshToken.hash_token "tok",
           expires_at := 100, is_revoked := false, revoked_at := none,
           created_at := 0 }] "tok" 10 ∧
    RefreshToken.revoke_refresh_token
        [{ id := 1, user_id := 7,
           token_hash := RefreshToken.hash_token "other",
           expires_at := 100, is_revoked := false, revoked_at := none,
           created_at := 0 }] "tok" 10 =
      [{ id := 1, user_id := 7,
         token_hash := RefreshToken.hash_token "other",
         expires_at := 100, is_revoked := false, revoked_at := none,
         created_at := 0 }] := by
  constructor
  · exact (revoke_refresh_token_idempotent _ "tok" 10 10).2.1
  · exact (revoke_refresh_token_idempotent _ "tok" 10 10).2.2.1
      (by decide)

-- ---------------------------------------------------------------------------
-- src/security.rs : token-bucket rate limiter
-- ---------------------------------------------------------------------------

namespace Security

/-- Rate limiting configuration (src/security.rs, struct RateLimitConfig). -/
structure RateLimitConfig where
  requests_per_minute : Nat
  max_content_length : Nat
deriving DecidableEq, Repr

/-- The Default impl: 10 requests per minute, 1KB max content length. -/
def RateLimitConfig.default : RateLimitConfig :=
  { requests_per_minute := 10, max_content_length := 1024 }

/-- Token bucket state (src/security.rs, struct TokenBucket).  The f64
token budget and timestamps are modelled exactly over the rationals;
time is an absolute instant in seconds. -/
structure TokenBucket where
  tokens : ℚ
  last_refill : ℚ
  capacity : Nat
  refill_rate : ℚ
deriving DecidableEq, Repr

/-- TokenBucket::new (src/security.rs lines 37-44): a full bucket whose
refill rate is requests_per_minute / 60 tokens per second. -/
def TokenBucket.new (capacity : Nat) (requests_per_minute : Nat)
    (now : ℚ) : TokenBucket :=
  { tokens := capacity
    last_refill := now
    capacity := capacity
    refill_rate := (requests_per_minute : ℚ) / 60 }

/-- TokenBucket::try_take_token (src/security.rs lines 46-61): refill from
elapsed time capped at capacity and advance last_refill (skipped when the
clock reads earlier than last_refill, the Err case of SystemTime
elapsed), then debit one token when at least one is available. -/
def TokenBucket.try_take_token (b : TokenBucket) (now : ℚ) :
    Bool × TokenBucket :=
  let b1 :=
    if b.last_refill ≤ now then
      { b with
          tokens := min (b.tokens + (now - b.last_refill) * b.refill_rate)
            (b.capacity : ℚ)
          last_refill := now }
    else b
  if 1 ≤ b1.tokens then (true, { b1 with tokens := b1.tokens - 1 })
  else (false, b1)

/-- Per-address rate limiter table (src/security.rs, struct
RateLimiterManager); the HashMap is modelled as an association list. -/
structure RateLimiterManager where
  config : RateLimitConfig
  limiters : List (String × TokenBucket)
deriving DecidableEq, Repr

/-- RateLimiterManager::new. -/
def RateLimiterManager.new (config : RateLimitConfig) :
    RateLimiterManager :=
  { config := config, limiters := [] }

/-- Write back the bucket of one address (the HashMap entry update). -/
def updateLimiter (l : List (String × TokenBucket)) (ip : String)
    (b : TokenBucket) : List (String × TokenBucket) :=
  match l with
  | [] => [(ip, b)]
  | (k, v) :: rest =>
    if k == ip then (k, b) :: rest else (k, v) :: updateLimiter rest ip b

/-- RateLimiterManager::check_rate_limit (src/security.rs lines 79-96):
fetch or lazily create the bucket of the address (entry.or_insert_with,
created full with capacity = requests_per_minute), take a token, and
reject with the rate-limit message when none is available. -/
def check_rate_limit (m : RateLimiterManager) (ip : String) (now : ℚ) :
    Except String Unit × RateLimiterManager :=
  let bucket := (m.limiters.lookup ip).getD
    (TokenBucket.new m.config.requests_per_minute
      m.config.requests_per_minute now)
  let res := bucket.try_take_token now
  let m2 := { m with limiters := updateLimiter m.limiters ip res.2 }
  if res.1 then (.ok (), m2)
  else
    (.error (String.append "Rate limit exceeded: max "
      (String.append (toString m.config.requests_per_minute)
        " requests per minute")), m2)

/-- RateLimiterManager::check_content_length (src/security.rs lines
99-107). -/
def check_content_length (m : RateLimiterManager) (length : Nat) :
    Except String Unit :=
  if length > m.config.max_content_length then
    .error (String.append "Content length exceeds maximum "
      (toString m.config.max_content_length))
  else .ok ()

/-- Run a sequence of admission checks, returning the admit/reject result
of each call in order. -/
def runChecks (m : RateLimiterManager) :
    List (String × ℚ) → List Bool × RateLimiterManager
  | [] => ([], m)
  | (ip, now) :: rest =>
    let step := check_rate_limit m ip now
    let tail := runChecks step.2 rest
    ((match step.1 with | .ok _ => true | .error _ => false) :: tail.1,
      tail.2)

/-- Fold a sequence of try_take_token calls over one bucket, keeping the
final state. -/
def runTakes (b : TokenBucket) (times : List ℚ) : TokenBucket :=
  times.foldl (fun b t => (b.try_take_token t).2) b

end Security

-- ---------------------------------------------------------------------------
-- Claim theorems: C6, C7
-- ---------------------------------------------------------------------------

/-- C6: with capacity 10 and refill rate 10 per minute, starting from a
fresh limiter, ten consecutive immediate admission checks for one address
succeed, the eleventh immediate check fails, and after exactly 6 seconds
exactly one more check succeeds (the one after it fails again). -/
theorem rate_limiter_burst_then_one_refill :
    (Security.runChecks
      (Security.RateLimiterManager.new
        { requests_per_minute := 10, max_content_length := 1024 })
      (List.replicate 11 ("127.0.0.1", (0 : ℚ)) ++
        [("127.0.0.1", 6), ("127.0.0.1", 6)])).1 =
      List.replicate 10 true ++ [false, true, false] := by
  norm_num [Security.runChecks, Security.check_rate_limit,
    Security.RateLimiterManager.new, Security.TokenBucket.new,
    Security.TokenBucket.try_take_token, Security.updateLimiter,
    List.lookup, List.replicate, min_def]

/-- One admission step keeps the token budget inside [0, capacity] and
leaves capacity and refill rate unchanged, provided the refill rate is
nonnegative. -/
lemma try_take_token_bounds (b : Security.TokenBucket) (now : ℚ)
    (h0 : 0 ≤ b.tokens) (hc : b.tokens ≤ (b.capacity : ℚ))
    (hr : 0 ≤ b.refill_rate) :
    0 ≤ (b.try_take_token now).2.tokens ∧
    (b.try_take_token now).2.tokens ≤ ((b.try_take_token now).2.capacity : ℚ) ∧
    (b.try_take_token now).2.capacity = b.capacity ∧
    (b.try_take_token now).2.refill_rate = b.refill_rate := by
  unfold Security.TokenBucket.try_take_token
  by_cases ht : b.last_refill ≤ now
  · rw [if_pos ht]
    dsimp only
    have hcap : (0 : ℚ) ≤ (b.capacity : ℚ) := by positivity
    have hrefl : (0 : ℚ) ≤
        min (b.tokens + (now - b.last_refill) * b.refill_rate)
          (b.capacity : ℚ) :=
      le_min (by nlinarith) hcap
    have hfillc : min (b.tokens + (now - b.last_refill) * b.refill_rate)
        (b.capacity : ℚ) ≤ (b.capacity : ℚ) := min_le_right _ _
    by_cases hone : (1 : ℚ) ≤
        min (b.tokens + (now - b.last_refill) * b.refill_rate)
          (b.capacity : ℚ)
    · rw [if_pos hone]
      dsimp only
      exact ⟨by linarith, by linarith, rfl, rfl⟩
    · rw [if_neg hone]
      dsimp only
      exact ⟨hrefl, hfillc, rfl, rfl⟩
  · rw [if_neg ht]
    by_cases hone : (1 : ℚ) ≤ b.tokens
    · rw [if_pos hone]
      dsimp only
      exact ⟨by linarith, by linarith, rfl, rfl⟩
    · rw [if_neg hone]
      dsimp only
      exact ⟨h0, hc, rfl, rfl⟩

/-- C7: for every bucket created with capacity c and every sequence of
admission checks at arbitrary times, the token budget stays in the closed
interval [0, c] (the refill is capped at the capacity and a token is
debited only when at least one is available). -/
theorem token_bucket_budget_in_range (c rpm : Nat) (t0 : ℚ)
    (times : List ℚ) :
    0 ≤ (Security.runTakes (Security.TokenBucket.new c rpm t0)
        times).tokens ∧
    (Security.runTakes (Security.TokenBucket.new c rpm t0) times).tokens ≤
      (c : ℚ) := by
  have hrun : ∀ (ts : List ℚ) (b : Security.TokenBucket),
      0 ≤ b.tokens → b.tokens ≤ (b.capacity : ℚ) → 0 ≤ b.refill_rate →
      0 ≤ (Security.runTakes b ts).tokens ∧
      (Security.runTakes b ts).tokens ≤
        ((Security.runTakes b ts).capacity : ℚ) ∧
      (Security.runTakes b ts).capacity = b.capacity := by
    intro ts
    induction ts with
    | nil => exact fun b h0 hc hr => ⟨h0, hc, rfl⟩
    | cons t rest ih =>
      intro b h0 hc hr
      obtain ⟨s0, sc, scap, srate⟩ := try_take_token_bounds b t h0 hc hr
      have hstep : Security.runTakes b (t :: rest) =
          Security.runTakes (b.try_take_token t).2 rest := rfl
      rw [hstep]
      have hrec := ih (b.try_take_token t).2 s0 sc (by rw [srate]; exact hr)
      exact ⟨hrec.1, hrec.2.1, by rw [hrec.2.2, scap]⟩
  have hnew : (Security.TokenBucket.new c rpm t0).tokens = (c : ℚ) := rfl
  have hcap : (Security.TokenBucket.new c rpm t0).capacity = c := rfl
  have h := hrun times (Security.TokenBucket.new c rpm t0)
    (by rw [hnew]; positivity) (by rw [hnew, hcap]) (by
      show (0 : ℚ) ≤ (rpm : ℚ) / 60
      positivity)
  exact ⟨h.1, h.2.1.trans_eq
    (congrArg (fun n : Nat => (n : ℚ)) (h.2.2.trans hcap))⟩

-- ---------------------------------------------------------------------------
-- src/validators.rs : input validators
-- ---------------------------------------------------------------------------

namespace Validators

def MAX_EMAIL_LENGTH : Nat := 254

def MAX_NAME_LENGTH : Nat := 256

def MIN_EMAIL_LENGTH : Nat := 5

def MIN_NAME_LENGTH : Nat := 1

/-- The validator module has its own ValidationError enum
(src/validators.rs lines 163-171), distinct from the one in
src/error.rs. -/
inductive ValidationError where
  | EmptyField (field : String)
  | TooShort (field : String) (min : Nat)
  | TooLong (field : String) (max : Nat)
  | InvalidFormat (field : String)
  | SuspiciousContent (field : String)
  | PossibleSQLInjection
deriving DecidableEq, Repr

/-- Model of regex \s and of the whitespace class of str::trim, restricted
to the ASCII fragment. -/
def wsChar (c : Char) : Bool := c.isWhitespace

/-- Model of regex \w (word characters), ASCII fragment. -/
def wordChar (c : Char) : Bool := c.isAlphanum || c == '_'

/-- str::trim, left half. -/
def trimLeft (l : List Char) : List Char := l.dropWhile wsChar

/-- str::trim, right half. -/
def trimRight (l : List Char) : List Char :=
  (l.reverse.dropWhile wsChar).reverse

/-- str::trim: strip whitespace from both ends. -/
def trim (l : List Char) : List Char := trimRight (trimLeft l)

/-- The punctuation codepoints of the local-part character class of
EMAIL_REGEX (src/validators.rs line 19), besides the alphanumerics. -/
def localSpecials : List Nat :=
  [33, 35, 36, 37, 38, 39, 42, 43, 46, 47, 61, 63, 94, 95, 96, 123, 124,
   125, 126, 45]

/-- One character of the local part of EMAIL_REGEX. -/
def isLocalChar (c : Char) : Bool :=
  c.isAlphanum || localSpecials.contains c.toNat

/-- One inner character of a domain label of EMAIL_REGEX. -/
def isLabelChar (c : Char) : Bool := c.isAlphanum || c.toNat == 45

/-- One domain label of EMAIL_REGEX: 1 to 63 characters, alphanumeric at
both ends, alphanumeric or hyphen inside. -/
def labelOk (l : List Char) : Bool :=
  match l with
  | [] => false
  | c :: rest =>
    c.isAlphanum && rest.length ≤ 62 &&
    (match rest.getLast? with
     | none => true
     | some d => d.isAlphanum && rest.dropLast.all isLabelChar)

/-- The anchored EMAIL_REGEX (src/validators.rs lines 18-20): since the
at-sign appears in no character class of the pattern, a full match is
exactly one at-sign splitting the input into a nonempty local part over
the local class and a dot-separated sequence of labels. -/
def emailRegexMatch (l : List Char) : Bool :=
  match l.splitOn '@' with
  | [lpart, domain] =>
    !lpart.isEmpty && lpart.all isLocalChar &&
      (domain.splitOn '.').all labelOk
  | _ => false

/-- has_suspicious_email_patterns (src/validators.rs lines 111-132):
local part before the first at-sign longer than 64 bytes, not exactly one
at-sign, or an embedded null byte. -/
def has_suspicious_email_patterns (l : List Char) : Bool :=
  (if l.contains '@' then
    utf8Len (l.takeWhile (fun c => c != '@')) > 64
  else false) ||
  (l.count '@' != 1) ||
  l.contains (Char.ofNat 0)

/-- Case-insensitive prefix test (regex (?i) literals). -/
def ciPrefix : List Char → List Char → Bool
  | [], _ => true
  | _ :: _, [] => false
  | p :: ps, c :: cs => (c.toLower == p.toLower) && ciPrefix ps cs

/-- Does some suffix of the input satisfy the matcher?  (Unanchored regex
search.) -/
def anySuffix (p : List Char → Bool) : List Char → Bool
  | [] => p []
  | c :: cs => p (c :: cs) || anySuffix p cs

/-- Pattern 1, (?i)\s+UNION\s+ : one whitespace, the literal, one
whitespace suffice for existence of a match. -/
def sqlP1At (l : List Char) : Bool :=
  match l with
  | c :: rest =>
    wsChar c && ciPrefix "union".toList rest &&
      (match rest.drop 5 with
       | d :: _ => wsChar d
       | [] => false)
  | [] => false

/-- Pattern 2, (--|;|/\*|\*/|xp_|sp_) : literal substring search. -/
def sqlP2At (l : List Char) : Bool :=
  ["--", ";", "/*", "*/", "xp_", "sp_"].any
    (fun s => s.toList.isPrefixOf l)

/-- Pattern 3, (?i);\s*(INSERT|UPDATE|DELETE|DROP|CREATE|ALTER) : since
the keywords start with letters, skipping the maximal whitespace run is
equivalent to the \s* search. -/
def sqlP3At (l : List Char) : Bool :=
  match l with
  | c :: rest =>
    c == ';' &&
      (["insert", "update", "delete", "drop", "create", "alter"].any
        (fun s => ciPrefix s.toList (rest.dropWhile wsChar)))
  | [] => false

/-- Pattern 4, (?i)(SLEEP|WAITFOR|BENCHMARK|DBMS_LOCK) : substring
search. -/
def sqlP4At (l : List Char) : Bool :=
  ["sleep", "waitfor", "benchmark", "dbms_lock"].any
    (fun s => ciPrefix s.toList l)

/-- A single or double quote (the character class of pattern 5). -/
def isQuote (c : Char) : Bool := c.toNat == 39 || c.toNat == 34

/-- Head is an equals sign. -/
def eqAfter (r : List Char) : Bool :=
  match r with
  | c :: _ => c == '='
  | [] => false

/-- The part of pattern 5 after the boolean keyword:
\s*(['quote'][0-9]*['quote']|[0-9]*)\s*= — the right-hand side group of
the pattern can match the empty string, so a match exists exactly when
the equals sign is reached.  Greedy skipping is equivalence-preserving
because digits are not whitespace and the equals sign is neither. -/
def sqlP5Arm (r0 : List Char) : Bool :=
  let r1 := r0.dropWhile wsChar
  (match r1 with
   | q1 :: rest =>
     isQuote q1 &&
       (match rest.dropWhile Char.isDigit with
        | q2 :: r2 => isQuote q2 && eqAfter (r2.dropWhile wsChar)
        | [] => false)
   | [] => false) ||
  eqAfter ((r1.dropWhile Char.isDigit).dropWhile wsChar)

/-- No word character follows (the trailing \b of the keyword). -/
def boundaryAfter (r : List Char) : Bool :=
  match r with
  | [] => true
  | c :: _ => !(wordChar c)

/-- Pattern 5 matcher at one position, given the preceding character (for
the leading \b). -/
def sqlP5At (prev : Option Char) (l : List Char) : Bool :=
  (match prev with
   | none => true
   | some c => !(wordChar c)) &&
  ((ciPrefix "or".toList l && boundaryAfter (l.drop 2) &&
      sqlP5Arm (l.drop 2)) ||
   (ciPrefix "and".toList l && boundaryAfter (l.drop 3) &&
      sqlP5Arm (l.drop 3)))

/-- Scan for pattern 5 keeping track of the preceding character. -/
def sqlP5Scan : Option Char → List Char → Bool
  | prev, [] => sqlP5At prev []
  | prev, c :: cs => sqlP5At prev (c :: cs) || sqlP5Scan (some c) cs

/-- Pattern 6, (?i)(CAST|CONVERT|SUBSTRING|CONCAT|LOAD_FILE) : substring
search. -/
def sqlP6At (l : List Char) : Bool :=
  ["cast", "convert", "substring", "concat", "load_file"].any
    (fun s => ciPrefix s.toList l)

/-- contains_sql_injection_patterns (src/validators.rs lines 159-161):
any of the six SQL_INJECTION_PATTERNS regexes matches somewhere in the
input. -/
def contains_sql_injection_patterns (l : List Char) : Bool :=
  anySuffix sqlP1At l || anySuffix sqlP2At l || anySuffix sqlP3At l ||
  anySuffix sqlP4At l || sqlP5Scan none l || anySuffix sqlP6At l

/-- Model of Rust char::is_control (the Unicode Cc category). -/
def rustIsControl (c : Char) : Bool :=
  c.toNat < 32 || (127 ≤ c.toNat && c.toNat ≤ 159)

/-- has_suspicious_name_patterns (src/validators.rs lines 135-156): null
bytes, control characters, or more than five special characters (not
alphanumeric, whitespace, hyphen, dot, underscore or apostrophe). -/
def has_suspicious_name_patterns (l : List Char) : Bool :=
  l.contains (Char.ofNat 0) ||
  l.any rustIsControl ||
  ((l.filter (fun c =>
    !(c.isAlphanum || c.isWhitespace || c == '-' || c == '.' ||
      c == '_' || c.toNat == 39))).length > 5)

/-- is_valid_email (src/validators.rs lines 43-75). -/
def is_valid_email (email : List Char) :
    Except ValidationError (List Char) :=
  let trimmed := trim email
  if trimmed.isEmpty then .error (.EmptyField "email")
  else if utf8Len trimmed < MIN_EMAIL_LENGTH then
    .error (.TooShort "email" MIN_EMAIL_LENGTH)
  else if utf8Len trimmed > MAX_EMAIL_LENGTH then
    .error (.TooLong "email" MAX_EMAIL_LENGTH)
  else if !(emailRegexMatch trimmed) then .error (.InvalidFormat "email")
  else if has_suspicious_email_patterns trimmed then
    .error (.SuspiciousContent "email")
  else if contains_sql_injection_patterns trimmed then
    .error .PossibleSQLInjection
  else .ok trimmed

/-- is_valid_name (src/validators.rs lines 81-108). -/
def is_valid_name (name : List Char) :
    Except ValidationError (List Char) :=
  let trimmed := trim name
  if trimmed.isEmpty then .error (.EmptyField "name")
  else if utf8Len trimmed < MIN_NAME_LENGTH then
    .error (.TooShort "name" MIN_NAME_LENGTH)
  else if utf8Len trimmed > MAX_NAME_LENGTH then
    .error (.TooLong "name" MAX_NAME_LENGTH)
  else if has_suspicious_name_patterns trimmed then
    .error (.SuspiciousContent "name")
  else if contains_sql_injection_patterns trimmed then
    .error .PossibleSQLInjection
  else .ok trimmed

end Validators

-- trim is idempotent: helper lemmas for C10

lemma dropWhile_dropWhile (p : Char → Bool) (l : List Char) :
    (l.dropWhile p).dropWhile p = l.dropWhile p := by
  induction l with
  | nil => rfl
  | cons c cs ih =>
    by_cases h : p c = true
    · simp only [List.dropWhile_cons, if_pos h]
      exact ih
    · simp only [List.dropWhile_cons, if_neg h]

lemma trimRight_trimRight (l : List Char) :
    Validators.trimRight (Validators.trimRight l) =
      Validators.trimRight l := by
  unfold Validators.trimRight
  rw [List.reverse_reverse, dropWhile_dropWhile]

lemma trimRight_prefix (y : List Char) : Validators.trimRight y <+: y := by
  obtain ⟨t, ht⟩ :=
    List.dropWhile_suffix (l := y.reverse) Validators.wsChar
  refine ⟨t.reverse, ?_⟩
  rw [show Validators.trimRight y =
    (y.reverse.dropWhile Validators.wsChar).reverse from rfl,
    ← List.reverse_append, ht, List.reverse_reverse]

lemma trimLeft_trimRight_of_trimLeft (y : List Char)
    (hy : Validators.trimLeft y = y) :
    Validators.trimLeft (Validators.trimRight y) =
      Validators.trimRight y := by
  have hpre := trimRight_prefix y
  cases hr : Validators.trimRight y with
  | nil => rfl
  | cons d ds =>
    rw [hr] at hpre
    cases y with
    | nil => exact absurd hpre (by simp)
    | cons c cs =>
      have hc : Validators.wsChar c = false := by
        by_cases h : Validators.wsChar c = true
        · exfalso
          rw [Validators.trimLeft, List.dropWhile_cons, if_pos h] at hy
          have hlen := congrArg List.length hy
          have hle : (cs.dropWhile Validators.wsChar).length ≤ cs.length :=
            (List.dropWhile_suffix _).length_le
          simp only [List.length_cons] at hlen
          omega
        · exact Bool.eq_false_iff.mpr h
      have hd : d = c := (List.cons_prefix_cons.mp hpre).1
      rw [Validators.trimLeft, List.dropWhile_cons,
        if_neg (by rw [hd, hc]; exact Bool.false_ne_true)]

lemma trim_trim (l : List Char) :
    Validators.trim (Validators.trim l) = Validators.trim l := by
  show Validators.trimRight (Validators.trimLeft
    (Validators.trimRight (Validators.trimLeft l))) = _
  rw [trimLeft_trimRight_of_trimLeft (Validators.trimLeft l)
    (dropWhile_dropWhile _ _), trimRight_trimRight]
  rfl

/-- is_valid_email with its let binding zeta-reduced. -/
lemma is_valid_email_eq (s : List Char) :
    Validators.is_valid_email s =
      (if (Validators.trim s).isEmpty then .error (.EmptyField "email")
      else if utf8Len (Validators.trim s) < Validators.MIN_EMAIL_LENGTH then
        .error (.TooShort "email" Validators.MIN_EMAIL_LENGTH)
      else if utf8Len (Validators.trim s) > Validators.MAX_EMAIL_LENGTH then
        .error (.TooLong "email" Validators.MAX_EMAIL_LENGTH)
      else if !(Validators.emailRegexMatch (Validators.trim s)) then
        .error (.InvalidFormat "email")
      else if Validators.has_suspicious_email_patterns
          (Validators.trim s) then
        .error (.SuspiciousContent "email")
      else if Validators.contains_sql_injection_patterns
          (Validators.trim s) then
        .error .PossibleSQLInjection
      else .ok (Validators.trim s)) := rfl

/-- is_valid_name with its let binding zeta-reduced. -/
lemma is_valid_name_eq (s : List Char) :
    Validators.is_valid_name s =
      (if (Validators.trim s).isEmpty then .error (.EmptyField "name")
      else if utf8Len (Validators.trim s) < Validators.MIN_NAME_LENGTH then
        .error (.TooShort "name" Validators.MIN_NAME_LENGTH)
      else if utf8Len (Validators.trim s) > Validators.MAX_NAME_LENGTH then
        .error (.TooLong "name" Validators.MAX_NAME_LENGTH)
      else if Validators.has_suspicious_name_patterns
          (Validators.trim s) then
        .error (.SuspiciousContent "name")
      else if Validators.contains_sql_injection_patterns
          (Validators.trim s) then
        .error .PossibleSQLInjection
      else .ok (Validators.trim s)) := rfl

-- ---------------------------------------------------------------------------
-- Claim theorems: C9, C10
-- ---------------------------------------------------------------------------

/-- The SQL boolean-tautology email from the spec, built character by
character (codepoint 39 is the single quote). -/
def sqlInjectionEmail : List Char :=
  "user".toList ++ [Char.ofNat 39] ++ " OR ".toList ++ [Char.ofNat 39] ++
  "1".toList ++ [Char.ofNat 39] ++ "=".toList ++ [Char.ofNat 39] ++
  "1@example.com".toList

/-- C9 counterexample: the boolean-tautology email is rejected by the
format check (its spaces are outside the local-part character class of
EMAIL_REGEX, and the format check runs before the injection screen), so
the result is the invalid-format error, not the distinguished
possible-injection error the claim names. -/
theorem email_injection_rejected_as_format_error :
    Validators.is_valid_email sqlInjectionEmail =
      .error (.InvalidFormat "email") ∧
    Validators.ValidationError.InvalidFormat "email" ≠
      Validators.ValidationError.PossibleSQLInjection := by
  exact ⟨by decide, by decide⟩

set_option maxRecDepth 40000 in
/-- C9 (amended): the validator accepts user@example.com; it rejects the
boolean-tautology email, but with the invalid-format error (the
injection screen itself does match that input, yet the format check
fires first); it rejects a 250-character local part (as suspicious
content); and it rejects the length-3 input a@b with the too-short
error. -/
theorem email_validator_concrete_cases :
    Validators.is_valid_email "user@example.com".toList =
      .ok "user@example.com".toList ∧
    Validators.is_valid_email sqlInjectionEmail =
      .error (.InvalidFormat "email") ∧
    Validators.contains_sql_injection_patterns sqlInjectionEmail = true ∧
    Validators.is_valid_email (List.replicate 250 'a' ++ "@b.c".toList) =
      .error (.SuspiciousContent "email") ∧
    Validators.is_valid_email "a@b".toList =
      .error (.TooShort "email" 5) := by
  refine ⟨by decide, by decide, by decide, by decide, by decide⟩

/-- C10: whenever is_valid_email or is_valid_name succeeds, the returned
value is exactly the whitespace-trimmed input, it is nonempty, and the
validator accepts it unchanged (validation is idempotent on its own
output). -/
theorem validators_trim_idempotent :
    (∀ s v, Validators.is_valid_email s = .ok v →
      v = Validators.trim s ∧ v ≠ [] ∧
      Validators.is_valid_email v = .ok v) ∧
    (∀ s v, Validators.is_valid_name s = .ok v →
      v = Validators.trim s ∧ v ≠ [] ∧
      Validators.is_valid_name v = .ok v) := by
  constructor
  · intro s v h
    rw [is_valid_email_eq] at h
    split_ifs at h with h1 h2 h3 h4 h5 h6
    injection h with hv
    subst hv
    refine ⟨rfl, fun hh => h1 (List.isEmpty_iff.mpr hh), ?_⟩
    rw [is_valid_email_eq, trim_trim,
      if_neg h1, if_neg h2, if_neg h3, if_neg h4, if_neg h5, if_neg h6]
  · intro s v h
    rw [is_valid_name_eq] at h
    split_ifs at h with h1 h2 h3 h4 h5
    injection h with hv
    subst hv
    refine ⟨rfl, fun hh => h1 (List.isEmpty_iff.mpr hh), ?_⟩
    rw [is_valid_name_eq, trim_trim,
      if_neg h1, if_neg h2, if_neg h3, if_neg h4, if_neg h5]

/-- Witness for C10 at concrete inputs. -/
theorem validators_trim_idempotent_witness :
    "user@example.com".toList =
      Validators.trim "user@example.com".toList ∧
    Validators.is_valid_email "user@example.com".toList =
      .ok "user@example.com".toList ∧
    "John".toList ≠ ([] : List Char) ∧
    Validators.is_valid_name "John".toList = .ok "John".toList := by
  have h1 := validators_trim_idempotent.1 "user@example.com".toList
    "user@example.com".toList (by decide)
  have h2 := validators_trim_idempotent.2 " John ".toList "John".toList
    (by decide)
  exact ⟨h1.1, h1.2.2, h2.2.1, h2.2.2⟩

end Zero2prod
